import Mathlib

/-! # Verification of `agentnet/learning/a2c_n_step.py`

A shallow embedding of `get_elementwise_objective` (N-step Advantage
Actor-Critic elementwise loss).  Tensors of shape [batch, tick] become lists
of rows over `ℚ`; the logarithm `T.log` is kept uninterpreted (a function
parameter `lg`), and the gradient semantics of `consider_constant` is
modelled separately with forward-mode dual numbers.

The helpers imported by the source file (`get_n_step_value_reference`,
`get_end_indicator`, `get_action_Qvalues` from `agentnet/learning/helpers.py`
and `consider_constant` from `agentnet/utils/grad.py`) are not part of the
provided source tree; their definitions below are modelled from the spec and
are marked as such in their doc comments.
-/

namespace A2CNStep

/-- Matrices of shape [batch, tick], modelled as lists of rows over `ℚ`. -/
abbrev Mat : Type := List (List ℚ)

/-- Entry of a matrix at row `r`, column `t` (0 outside the matrix). -/
def cell (M : Mat) (r t : ℕ) : ℚ := (M.getD r []).getD t 0

/-- Shape of a matrix: the list of its row lengths. -/
def shape (M : Mat) : List ℕ := M.map List.length

/-- Build a matrix with the same shape as `M` whose `(r, t)` entry is `f r t`. -/
def buildLike (M : Mat) (f : ℕ → ℕ → ℚ) : Mat :=
  (List.range M.length).map fun r =>
    (List.range (M.getD r []).length).map fun t => f r t

/-- The `is_alive` argument: the string sentinel `"always"` or an explicit
[batch, tick] liveness mask. -/
inductive Aliveness where
  | always
  | mask (m : Mat)

/-- The `state_values_after_end` argument: the `"zeros"` sentinel or an
explicit [batch, 1] tensor, kept as its column 0 (one scalar per batch row),
which is all the objective ever reads of it
(`state_values_after_end[end_ids[0], 0]`, line 95). -/
inductive AfterEnd where
  | zeros
  | tensor (v : List ℚ)

/-- The error taxonomy of the spec (§7). -/
inductive A2CError where
  | invalidConfiguration
  | shapeMismatch
  | indexOutOfRange
  deriving DecidableEq

/-- Modelled from the spec: one backward chain of the Return Estimator
(`get_n_step_value_reference` in `agentnet/learning/helpers.py`, which is not
under `src/`).  `refA gamma rew vtgt alive aEnd T t w` is the reference value
at tick `t` of a row of length `T` with `w` accumulation steps left in the
n-step window (spec §4.1): a dead tick resets the recurrence to 0; with steps
left, `G t = rewards[t] + gamma * G (t+1)`, bootstrapping with the after-end
value past the last tick; when the window is exhausted the recursion truncates
and bootstraps with `state_values_target` (masked by liveness). -/
def refA (gamma : ℚ) (rew vtgt alive : List ℚ) (aEnd : ℚ) (T : ℕ) : ℕ → ℕ → ℚ
  | t, 0 => if alive.getD t 1 = 0 then 0 else vtgt.getD t 0
  | t, w + 1 =>
      if alive.getD t 1 = 0 then 0
      else rew.getD t 0 +
        gamma * (if T ≤ t + 1 then aEnd else refA gamma rew vtgt alive aEnd T (t + 1) w)

/-- Modelled from the spec: per-row Return Estimator.  `n = none` propagates
rewards through the whole session (window = row length); `n = some k` uses a
window of `k` transitions. -/
def nStepRefRow (gamma : ℚ) (rew vtgt alive : List ℚ) (aEnd : ℚ) (n : Option ℕ) : List ℚ :=
  (List.range rew.length).map fun t =>
    refA gamma rew vtgt alive aEnd rew.length t (n.getD (rew.length - t))

/-- Liveness rows as seen by the Return Estimator: all-ones over the shape of
`rewards` for the `"always"` sentinel, else the explicit mask. -/
def aliveRowsEst (rewards : Mat) : Aliveness → Mat
  | .always => rewards.map fun row => row.map fun _ => (1 : ℚ)
  | .mask m => m

/-- Per-row after-end bootstrap value. -/
def afterEndVal (aEnd : AfterEnd) (r : ℕ) : ℚ :=
  match aEnd with
  | .zeros => 0
  | .tensor v => v.getD r 0

/-- Total core of the Return Estimator: the backward recurrence applied row by
row (shape checks already passed). -/
def referenceRows (vtgt rewards : Mat) (is_alive : Aliveness) (n : Option ℕ)
    (aEnd : AfterEnd) (gamma : ℚ) : Mat :=
  (List.range rewards.length).map fun r =>
    nStepRefRow gamma (rewards.getD r []) (vtgt.getD r [])
      ((aliveRowsEst rewards is_alive).getD r []) (afterEndVal aEnd r) n

/-- Shape coherence demanded of the Return Estimator's inputs (spec §4.1). -/
def estShapesOk (vtgt rewards : Mat) (is_alive : Aliveness) : Bool :=
  decide (shape vtgt = shape rewards) &&
    (match is_alive with
     | .always => true
     | .mask m => decide (shape m = shape rewards))

/-- The `n_steps` argument converted to a window size (after the positivity
check has passed). -/
def nStepsNat : Option ℤ → Option ℕ
  | none => none
  | some z => some z.toNat

/-- Modelled from the spec: `get_n_step_value_reference`
(`agentnet/learning/helpers.py`, not under `src/`).  Surfaces the spec's §4.1
error conditions — `InvalidConfiguration` for a non-positive `n_steps`,
`ShapeMismatch` for inconsistent shapes — then runs the backward recurrence. -/
def get_n_step_value_reference (vtgt rewards : Mat) (is_alive : Aliveness)
    (n_steps : Option ℤ) (aEnd : AfterEnd) (gamma : ℚ) : Except A2CError Mat :=
  match n_steps with
  | some z =>
      if z ≤ 0 then .error .invalidConfiguration
      else if estShapesOk vtgt rewards is_alive then
        .ok (referenceRows vtgt rewards is_alive (nStepsNat (some z)) aEnd gamma)
      else .error .shapeMismatch
  | none =>
      if estShapesOk vtgt rewards is_alive then
        .ok (referenceRows vtgt rewards is_alive none aEnd gamma)
      else .error .shapeMismatch

/-- Modelled from the spec: `get_end_indicator(is_alive, force_end_at_t_max=True)`
(`agentnet/learning/helpers.py`, not under `src/`): tick `t` is an episode
boundary when liveness transitions from alive to dead between `t` and `t + 1`,
or when `t` is the last time column (spec §4.1). -/
def isEndTick (m : Mat) (r t : ℕ) : Bool :=
  decide (t + 1 = (m.getD r []).length) ||
    (decide (cell m r t ≠ 0) && decide (cell m r (t + 1) = 0))

/-- The arguments of `get_elementwise_objective`, with the source's defaults
(lines 19-34). -/
structure Inputs where
  policy : List (List (List ℚ))
  state_values : Mat
  actions : List (List ℕ)
  rewards : Mat
  is_alive : Aliveness := .always
  state_values_target : Option Mat := none
  n_steps : Option ℤ := none
  gamma_or_gammas : ℚ := 99 / 100
  crop_last : Bool := true
  force_values_after_end : Bool := true
  state_values_after_end : AfterEnd := .zeros
  consider_value_reference_constant : Bool := true
  consider_predicted_value_constant : Bool := true
  min_proba : ℚ := 1 / 10 ^ 30

/-- Lines 69-70: `state_values_target = state_values` when `None`. -/
def targetOf (I : Inputs) : Mat := I.state_values_target.getD I.state_values

/-- Lines 73-79: the reference values produced by the Return Estimator
(total core). -/
def reference_state_values (I : Inputs) : Mat :=
  referenceRows (targetOf I) I.rewards I.is_alive (nStepsNat I.n_steps)
    I.state_values_after_end I.gamma_or_gammas

/-- Lines 82-96: the terminal override — at every episode-boundary tick the
reference is replaced by `rewards` (zeros sentinel) or by
`rewards + gamma_or_gammas * state_values_after_end` (explicit tensor); the
step is skipped when `is_alive` is `"always"` or `force_values_after_end`
is false. -/
def reference_after_override (I : Inputs) : Mat :=
  match I.is_alive with
  | .always => reference_state_values I
  | .mask m =>
      if I.force_values_after_end then
        buildLike I.rewards fun r t =>
          if isEndTick m r t then
            match I.state_values_after_end with
            | .zeros => cell I.rewards r t
            | .tensor v => cell I.rewards r t + I.gamma_or_gammas * v.getD r 0
          else cell (reference_state_values I) r t
      else reference_state_values I

/-- Lines 105-107: `crop_last` overwrites the last column of the reference with
the predicted state values at that column. -/
def reference_after_crop (I : Inputs) : Mat :=
  if I.crop_last then
    buildLike I.rewards fun r t =>
      if t + 1 = (I.rewards.getD r []).length then cell I.state_values r t
      else cell (reference_after_override I) r t
  else reference_after_override I

/-- Modelled from the spec: `consider_constant` (`agentnet/utils/grad.py`, not
under `src/`) — "detach from the differentiation graph".  On values it is the
identity; its gradient-only effect is captured on `Dual` below. -/
def consider_constant (x : ℚ) : ℚ := x

/-- Lines 108-109: optional detach of the reference before any use in the loss. -/
def reference_final (I : Inputs) : Mat :=
  if I.consider_value_reference_constant then
    (reference_after_crop I).map fun row => row.map consider_constant
  else reference_after_crop I

/-- Line 103, modelled from the spec: `get_action_Qvalues`
(`agentnet/learning/helpers.py`, not under `src/`) gathers
`policy[r, t, actions[r, t]]`. -/
def action_probas (I : Inputs) : Mat :=
  buildLike I.rewards fun r t =>
    ((I.policy.getD r []).getD t []).getD ((I.actions.getD r []).getD t 0) 0

/-- Lines 111-120: logarithm of the selected action probabilities with the
`min_proba` switch: where the probability is exactly 0 (and `min_proba != 0`),
`log(p + min_proba)` is used instead of `log(p)`.  `lg` stands for `T.log`. -/
def log_probas (lg : ℚ → ℚ) (I : Inputs) : Mat :=
  if I.min_proba ≠ 0 then
    buildLike I.rewards fun r t =>
      if cell (action_probas I) r t = 0 then
        lg (cell (action_probas I) r t + I.min_proba)
      else lg (cell (action_probas I) r t)
  else
    buildLike I.rewards fun r t => lg (cell (action_probas I) r t)

/-- Line 122: the predicted state values as used inside the policy term. -/
def observed_state_values (I : Inputs) : Mat :=
  if I.consider_predicted_value_constant then
    I.state_values.map fun row => row.map consider_constant
  else I.state_values

/-- Line 124: `policy_loss_elwise = - log_probas * (reference - observed)`. -/
def policy_loss_elwise (lg : ℚ → ℚ) (I : Inputs) : Mat :=
  buildLike I.rewards fun r t =>
    -(cell (log_probas lg I) r t) *
      (cell (reference_final I) r t - cell (observed_state_values I) r t)

/-- Line 127: `V_err_elwise = squared_error(reference_state_values, state_values)`. -/
def V_err_elwise (I : Inputs) : Mat :=
  buildLike I.rewards fun r t =>
    (cell (reference_final I) r t - cell I.state_values r t) ^ 2

/-- Lines 99-100: the liveness mask used in the final product — all-ones over
the shape of `actions` (`T.ones_like(actions)`) for the `"always"` sentinel. -/
def aliveMat (actions : List (List ℕ)) : Aliveness → Mat
  | .always => actions.map fun row => row.map fun _ => (1 : ℚ)
  | .mask m => m

/-- Line 129: the returned tensor `(policy_loss_elwise + V_err_elwise) * is_alive`. -/
def objectiveRows (lg : ℚ → ℚ) (I : Inputs) : Mat :=
  buildLike I.rewards fun r t =>
    (cell (policy_loss_elwise lg I) r t + cell (V_err_elwise I) r t) *
      cell (aliveMat I.actions I.is_alive) r t

/-- Shape coherence across the assembler's inputs: all [batch, tick]
dimensions agree (spec §7, `ShapeMismatch`). -/
def asmShapesOk (I : Inputs) : Bool :=
  decide (shape I.state_values = shape I.rewards) &&
    decide (I.actions.map List.length = I.rewards.map List.length) &&
      decide (I.policy.map List.length = I.rewards.map List.length)

/-- Every committed action indexes into its policy distribution
(spec §4.2 step 1, `IndexOutOfRange`). -/
def actionsOk (I : Inputs) : Bool :=
  (List.range I.actions.length).all fun r =>
    (List.range (I.actions.getD r []).length).all fun t =>
      decide ((I.actions.getD r []).getD t 0 < ((I.policy.getD r []).getD t []).length)

/-- Source lines 19-129, `get_elementwise_objective`: run the Return
Estimator, then assemble the elementwise A2C loss
`(policy_loss_elwise + V_err_elwise) * is_alive`; fallible steps surface the
spec's §7 errors.  `lg` is the uninterpreted logarithm `T.log`. -/
def get_elementwise_objective (lg : ℚ → ℚ) (I : Inputs) : Except A2CError Mat :=
  match get_n_step_value_reference (targetOf I) I.rewards I.is_alive I.n_steps
      I.state_values_after_end I.gamma_or_gammas with
  | .error e => .error e
  | .ok _ =>
      if asmShapesOk I then
        if actionsOk I then .ok (objectiveRows lg I)
        else .error .indexOutOfRange
      else .error .shapeMismatch

/-! ## Dual numbers: the gradient semantics of `consider_constant`

Forward-mode differentiation: a `Dual` carries a value and its sensitivity to
one scalar perturbation upstream.  `T.grad`-relevant operations of the loss
assembly (lines 108-127) are mirrored on `Dual`; `consider_constant` zeroes
the sensitivity while keeping the value, which is exactly the spec's
"detach from the differentiation graph" contract (§4.2 step 2). -/

/-- A value together with its derivative along one upstream perturbation. -/
structure Dual where
  val : ℚ
  der : ℚ
  deriving DecidableEq

/-- Sum of dual numbers. -/
def Dual.add (a b : Dual) : Dual := ⟨a.val + b.val, a.der + b.der⟩

/-- Product of dual numbers (Leibniz rule). -/
def Dual.mul (a b : Dual) : Dual := ⟨a.val * b.val, a.val * b.der + b.val * a.der⟩

/-- Negation of a dual number. -/
def Dual.neg (a : Dual) : Dual := ⟨-a.val, -a.der⟩

/-- Difference of dual numbers. -/
def Dual.sub (a b : Dual) : Dual := ⟨a.val - b.val, a.der - b.der⟩

/-- Modelled from the spec: `consider_constant` on the differentiation graph
(`agentnet/utils/grad.py`, not under `src/`) — the value passes through, the
gradient is defined to be zero. -/
def Dual.consider_constant (a : Dual) : Dual := ⟨a.val, 0⟩

/-- Lines 108-109 on `Dual`: the reference as used in the loss, optionally
detached by `consider_value_reference_constant`. -/
def refAfterConstD (cvrc : Bool) (ref : Dual) : Dual :=
  if cvrc then Dual.consider_constant ref else ref

/-- Line 122 on `Dual`: the predicted value as used in the policy term,
optionally detached by `consider_predicted_value_constant`. -/
def observedD (cpvc : Bool) (v : Dual) : Dual :=
  if cpvc then Dual.consider_constant v else v

/-- Line 124 on `Dual`: one cell of `policy_loss_elwise`,
`- log_probas * (reference_state_values - observed_state_values)`. -/
def policy_loss_cellD (cvrc cpvc : Bool) (logp ref v : Dual) : Dual :=
  Dual.mul (Dual.neg logp) (Dual.sub (refAfterConstD cvrc ref) (observedD cpvc v))

/-- Line 127 on `Dual`: one cell of `V_err_elwise`,
`squared_error(reference_state_values, state_values)` — note that the source
reuses the (possibly detached) `reference_state_values` of lines 108-109 but
the original, non-detached `state_values`. -/
def V_err_cellD (cvrc : Bool) (ref v : Dual) : Dual :=
  Dual.mul (Dual.sub (refAfterConstD cvrc ref) v) (Dual.sub (refAfterConstD cvrc ref) v)

/-! ## Access lemmas -/

theorem getD_range_map {α : Type} (f : ℕ → α) (n i : ℕ) (d : α) (h : i < n) :
    ((List.range n).map f).getD i d = f i := by
  rw [List.getD_eq_getElem?_getD, List.getElem?_map, List.getElem?_range h]
  rfl

theorem getD_range_map_oob {α : Type} (f : ℕ → α) (n i : ℕ) (d : α) (h : n ≤ i) :
    ((List.range n).map f).getD i d = d := by
  rw [List.getD_eq_getElem?_getD, List.getElem?_eq_none, Option.getD_none]
  simpa using h

theorem length_buildLike (M : Mat) (f : ℕ → ℕ → ℚ) :
    (buildLike M f).length = M.length := by
  simp [buildLike]

theorem row_buildLike (M : Mat) (f : ℕ → ℕ → ℚ) (r : ℕ) (hr : r < M.length) :
    (buildLike M f).getD r [] = (List.range (M.getD r []).length).map (f r) := by
  unfold buildLike
  exact getD_range_map _ _ _ _ hr

theorem cell_buildLike (M : Mat) (f : ℕ → ℕ → ℚ) (r t : ℕ)
    (hr : r < M.length) (ht : t < (M.getD r []).length) :
    cell (buildLike M f) r t = f r t := by
  unfold cell
  rw [row_buildLike M f r hr]
  exact getD_range_map _ _ _ _ ht

theorem cell_buildLike_oob (M : Mat) (f : ℕ → ℕ → ℚ) (r t : ℕ)
    (h : M.length ≤ r ∨ (M.getD r []).length ≤ t) :
    cell (buildLike M f) r t = 0 := by
  rcases h with hr | ht
  · unfold cell buildLike
    rw [getD_range_map_oob _ _ _ _ hr]
    rfl
  · rcases Nat.lt_or_ge r M.length with hr | hr
    · unfold cell
      rw [row_buildLike M f r hr]
      exact getD_range_map_oob _ _ _ _ ht
    · unfold cell buildLike
      rw [getD_range_map_oob _ _ _ _ hr]
      rfl

theorem map_consider_constant (M : Mat) :
    (M.map fun row => row.map consider_constant) = M :=
  List.map_id'' (fun row => List.map_id'' (fun _ => rfl) row) M

theorem cell_map_consider_constant (M : Mat) (r t : ℕ) :
    cell (M.map fun row => row.map consider_constant) r t = cell M r t := by
  rw [map_consider_constant]

theorem getD_eq_of_lt {α : Type} (l : List α) (i : ℕ) (d d' : α) (h : i < l.length) :
    l.getD i d = l.getD i d' := by
  rw [List.getD_eq_getElem?_getD, List.getD_eq_getElem?_getD, List.getElem?_eq_getElem h]
  rfl

theorem cell_referenceRows (vtgt rewards : Mat) (ia : Aliveness) (n : Option ℕ)
    (aE : AfterEnd) (g : ℚ) (r t : ℕ)
    (hr : r < rewards.length) (ht : t < (rewards.getD r []).length) :
    cell (referenceRows vtgt rewards ia n aE g) r t =
      refA g (rewards.getD r []) (vtgt.getD r []) ((aliveRowsEst rewards ia).getD r [])
        (afterEndVal aE r) (rewards.getD r []).length t
        (n.getD ((rewards.getD r []).length - t)) := by
  unfold cell referenceRows nStepRefRow
  rw [getD_range_map _ _ _ _ hr, getD_range_map _ _ _ _ ht]

theorem cell_reference_final (I : Inputs) (r t : ℕ) :
    cell (reference_final I) r t = cell (reference_after_crop I) r t := by
  unfold reference_final
  cases I.consider_value_reference_constant with
  | false => rw [if_neg (by simp)]
  | true => rw [if_pos rfl, cell_map_consider_constant]

theorem cell_observed (I : Inputs) (r t : ℕ) :
    cell (observed_state_values I) r t = cell I.state_values r t := by
  unfold observed_state_values
  cases I.consider_predicted_value_constant with
  | false => rw [if_neg (by simp)]
  | true => rw [if_pos rfl, cell_map_consider_constant]

/-! ## The claims -/

/-- The concrete batch of the spec's §8 scenario: batch 1, time 3,
`gamma = 0.9`, always alive, `rewards = [1,1,1]`, `state_values = [0,0,0]`,
unbounded `n_steps`, after-end values `"zeros"`. -/
def scenarioInputs : Inputs :=
  { policy := [[[1], [1], [1]]]
    state_values := [[0, 0, 0]]
    actions := [[0, 0, 0]]
    rewards := [[1, 1, 1]]
    gamma_or_gammas := 9 / 10
    crop_last := true }

/-- C1: on the concrete scenario batch (1 row, 3 ticks, `gamma = 0.9`,
always-alive, rewards `[1,1,1]`, state values `[0,0,0]`, unbounded `n_steps`,
zero after-end values) the Return Estimator produces the reference values
`[2.71, 1.9, 1.0]`; with `crop_last = true` the last reference is overwritten
to 0 — the predicted value at `t = 2` — so the value-loss term at `t = 2`
is exactly 0. -/
theorem claim1_concrete :
    get_n_step_value_reference [[0, 0, 0]] [[1, 1, 1]] .always none .zeros (9 / 10)
        = .ok [[271 / 100, 19 / 10, 1]] ∧
      reference_after_crop scenarioInputs = [[271 / 100, 19 / 10, 0]] ∧
        cell (V_err_elwise scenarioInputs) 0 2 = 0 := by
  refine ⟨?_, ?_, ?_⟩
  · norm_num [get_n_step_value_reference, estShapesOk, shape, referenceRows, nStepRefRow,
      refA, aliveRowsEst, afterEndVal, nStepsNat, cell, List.range_succ]
  · norm_num [reference_after_crop, reference_after_override, reference_state_values,
      referenceRows, nStepRefRow, refA, aliveRowsEst, afterEndVal, nStepsNat, targetOf,
      buildLike, cell, scenarioInputs, List.range_succ]
  · norm_num [V_err_elwise, reference_final, reference_after_crop, reference_after_override,
      reference_state_values, referenceRows, nStepRefRow, refA, aliveRowsEst, afterEndVal,
      nStepsNat, targetOf, buildLike, cell, consider_constant, scenarioInputs, List.range_succ]

/-- C7: with `consider_value_reference_constant = true` the policy-loss term
has zero sensitivity to a perturbation of the producer of the reference state
values, while the value-loss term keeps a nonzero sensitivity to
`state_values`; symmetrically, with `consider_predicted_value_constant = true`
the predicted value is a detached baseline in the policy term, yet the
value-regression term still differentiates through the original
`state_values`.  (Forward-mode sensitivities on `Dual`.) -/
theorem claim7_gradient_blocking (cvrc cpvc : Bool) (logp ref v rd vd : ℚ) :
    (policy_loss_cellD true cpvc ⟨logp, 0⟩ ⟨ref, rd⟩ ⟨v, 0⟩).der = 0 ∧
      (ref ≠ v → vd ≠ 0 → (V_err_cellD true ⟨ref, rd⟩ ⟨v, vd⟩).der ≠ 0) ∧
        (policy_loss_cellD cvrc true ⟨logp, 0⟩ ⟨ref, 0⟩ ⟨v, vd⟩).der = 0 ∧
          (ref ≠ v → vd ≠ 0 → (V_err_cellD cvrc ⟨ref, 0⟩ ⟨v, vd⟩).der ≠ 0) := by
  refine ⟨?_, ?_, ?_, ?_⟩
  · cases cpvc <;>
      simp [policy_loss_cellD, refAfterConstD, observedD, Dual.consider_constant,
        Dual.mul, Dual.neg, Dual.sub]
  · intro h1 h2
    have hx : (ref - v) * (0 - vd) ≠ 0 :=
      mul_ne_zero (sub_ne_zero.mpr h1) (by simpa using h2)
    simp only [V_err_cellD, refAfterConstD, Dual.consider_constant, Dual.mul, Dual.sub,
      if_pos]
    rw [← two_mul]
    exact mul_ne_zero two_ne_zero hx
  · cases cvrc <;>
      simp [policy_loss_cellD, refAfterConstD, observedD, Dual.consider_constant,
        Dual.mul, Dual.neg, Dual.sub]
  · intro h1 h2
    have hx : (ref - v) * (0 - vd) ≠ 0 :=
      mul_ne_zero (sub_ne_zero.mpr h1) (by simpa using h2)
    cases cvrc <;>
      · simp only [V_err_cellD, refAfterConstD, Dual.consider_constant, Dual.mul, Dual.sub,
          if_pos, if_neg, Bool.false_eq_true, ite_false, ite_true]
        rw [← two_mul]
        exact mul_ne_zero two_ne_zero hx

/-- C7 witness: at `ref = 1`, `v = 0`, sensitivity seed 1 on `state_values`,
the value-loss sensitivity is nonzero. -/
theorem claim7_witness : (V_err_cellD true ⟨1, 0⟩ ⟨0, 1⟩).der ≠ 0 :=
  (claim7_gradient_blocking true true 0 1 0 0 1).2.1 (by norm_num) (by norm_num)

/-- C8: a non-positive `n_steps` makes the call fail with
`InvalidConfiguration` instead of returning a loss tensor. -/
theorem claim8_invalid_n_steps (lg : ℚ → ℚ) (I : Inputs) (z : ℤ)
    (hn : I.n_steps = some z) (hz : z ≤ 0) :
    get_elementwise_objective lg I = .error .invalidConfiguration := by
  unfold get_elementwise_objective get_n_step_value_reference
  rw [hn]
  simp [hz]

/-- C8 witness: `n_steps = 0` on a one-cell batch. -/
theorem claim8_witness :
    get_elementwise_objective (fun x => x)
        { policy := [[[1]]], state_values := [[0]], actions := [[0]],
          rewards := [[1]], n_steps := some 0 }
      = .error .invalidConfiguration :=
  claim8_invalid_n_steps (fun x => x) _ 0 rfl (by norm_num)

theorem est_ok_elim (vtgt rewards : Mat) (ia : Aliveness) (n : Option ℤ)
    (aE : AfterEnd) (g : ℚ) (M : Mat)
    (h : get_n_step_value_reference vtgt rewards ia n aE g = .ok M) :
    estShapesOk vtgt rewards ia = true ∧
      M = referenceRows vtgt rewards ia (nStepsNat n) aE g := by
  cases n with
  | none =>
      simp only [get_n_step_value_reference] at h
      by_cases hs : estShapesOk vtgt rewards ia = true
      · rw [if_pos hs] at h
        exact ⟨hs, (Except.ok.inj h).symm⟩
      · rw [if_neg hs] at h
        exact absurd h (by simp)
  | some z =>
      simp only [get_n_step_value_reference] at h
      by_cases hz : z ≤ 0
      · rw [if_pos hz] at h
        exact absurd h (by simp)
      · rw [if_neg hz] at h
        by_cases hs : estShapesOk vtgt rewards ia = true
        · rw [if_pos hs] at h
          exact ⟨hs, (Except.ok.inj h).symm⟩
        · rw [if_neg hs] at h
          exact absurd h (by simp)

theorem objective_ok_elim (lg : ℚ → ℚ) (I : Inputs) (L : Mat)
    (h : get_elementwise_objective lg I = .ok L) : L = objectiveRows lg I := by
  unfold get_elementwise_objective at h
  cases hE : get_n_step_value_reference (targetOf I) I.rewards I.is_alive I.n_steps
      I.state_values_after_end I.gamma_or_gammas with
  | error e =>
      rw [hE] at h
      exact absurd h (by simp)
  | ok M =>
      rw [hE] at h
      by_cases h1 : asmShapesOk I = true
      · by_cases h2 : actionsOk I = true
        · rw [if_pos h1, if_pos h2] at h
          exact (Except.ok.inj h).symm
        · rw [if_pos h1, if_neg h2] at h
          exact absurd h (by simp)
      · rw [if_neg h1] at h
        exact absurd h (by simp)

theorem getD_map_length (A : Mat) (r : ℕ) :
    (A.map List.length).getD r 0 = (A.getD r []).length := by
  rw [List.getD_eq_getElem?_getD, List.getElem?_map, List.getD_eq_getElem?_getD]
  cases A[r]? with
  | none => rfl
  | some row => rfl

theorem row_len_of_shape_eq (A B : Mat) (hs : shape A = shape B) (r : ℕ) :
    (A.getD r []).length = (B.getD r []).length := by
  have h := congrArg (fun l => List.getD l r 0) hs
  simp only [shape] at h
  rw [getD_map_length, getD_map_length] at h
  exact h

theorem alive_row_len (vtgt rewards : Mat) (ia : Aliveness)
    (hs : estShapesOk vtgt rewards ia = true) (r : ℕ) :
    ((aliveRowsEst rewards ia).getD r []).length = (rewards.getD r []).length := by
  cases ia with
  | always =>
      unfold aliveRowsEst
      rw [List.getD_eq_getElem?_getD, List.getElem?_map, List.getD_eq_getElem?_getD]
      cases rewards[r]? with
      | none => rfl
      | some row => simp
  | mask m =>
      have hm : shape m = shape rewards := by
        unfold estShapesOk at hs
        simp only [Bool.and_eq_true, decide_eq_true_eq] at hs
        exact hs.2
      exact row_len_of_shape_eq m rewards hm r

/-- The last column of a row, as used by `crop_last` and the final-column
claims. -/
theorem cell_crop_last (I : Inputs) (r : ℕ) (hc : I.crop_last = true)
    (hr : r < I.rewards.length) (hT : 0 < (I.rewards.getD r []).length) :
    cell (reference_after_crop I) r ((I.rewards.getD r []).length - 1)
      = cell I.state_values r ((I.rewards.getD r []).length - 1) := by
  have hlast : (I.rewards.getD r []).length - 1 + 1 = (I.rewards.getD r []).length :=
    Nat.succ_pred_eq_of_pos hT
  have ht : (I.rewards.getD r []).length - 1 < (I.rewards.getD r []).length :=
    Nat.sub_lt hT Nat.one_pos
  unfold reference_after_crop
  rw [hc, if_pos rfl, cell_buildLike _ _ _ _ hr ht, if_pos hlast]

/-- C3: with an explicit liveness mask and `force_values_after_end = true`,
every episode-boundary tick (liveness transition from alive to dead, or the
last time column) has its reference forcibly replaced — by the immediate
reward alone under the `"zeros"` sentinel, and by
`rewards + gamma_or_gammas * state_values_after_end` for an explicit after-end
tensor — while every non-boundary tick keeps the value produced by the
recurrence. -/
theorem claim3_terminal_override (I : Inputs) (m : Mat) (r t : ℕ)
    (hm : I.is_alive = .mask m) (hf : I.force_values_after_end = true)
    (hr : r < I.rewards.length) (ht : t < (I.rewards.getD r []).length) :
    (isEndTick m r t = true →
        cell (reference_after_override I) r t =
          (match I.state_values_after_end with
           | .zeros => cell I.rewards r t
           | .tensor v => cell I.rewards r t + I.gamma_or_gammas * v.getD r 0)) ∧
      (isEndTick m r t = false →
        cell (reference_after_override I) r t = cell (reference_state_values I) r t) := by
  unfold reference_after_override
  rw [hm]
  simp only
  rw [hf, if_pos rfl]
  constructor
  · intro he
    rw [cell_buildLike _ _ _ _ hr ht, if_pos he]
  · intro he
    rw [cell_buildLike _ _ _ _ hr ht, if_neg (by simp [he])]

/-- C3 witness: mask `[[1,1,0]]`: tick 1 is a boundary (alive-to-dead
transition) and gets the immediate reward; tick 0 is not a boundary and keeps
the recurrence value. -/
theorem claim3_witness :
    cell (reference_after_override
        { policy := [[[1], [1], [1]]], state_values := [[0, 0, 0]],
          actions := [[0, 0, 0]], rewards := [[1, 2, 3]],
          is_alive := .mask [[1, 1, 0]] }) 0 1
      = cell (([[1, 2, 3]] : Mat)) 0 1 ∧
    cell (reference_after_override
        { policy := [[[1], [1], [1]]], state_values := [[0, 0, 0]],
          actions := [[0, 0, 0]], rewards := [[1, 2, 3]],
          is_alive := .mask [[1, 1, 0]] }) 0 0
      = cell (reference_state_values
        { policy := [[[1], [1], [1]]], state_values := [[0, 0, 0]],
          actions := [[0, 0, 0]], rewards := [[1, 2, 3]],
          is_alive := .mask [[1, 1, 0]] }) 0 0 := by
  constructor
  · exact (claim3_terminal_override _ [[1, 1, 0]] 0 1 rfl rfl (by norm_num)
      (by norm_num)).1 (by norm_num [isEndTick, cell])
  · exact (claim3_terminal_override _ [[1, 1, 0]] 0 0 rfl rfl (by norm_num)
      (by norm_num)).2 (by norm_num [isEndTick, cell])

/-- C4: every cell at which the liveness mask is 0 gets a returned loss of
exactly 0, whatever the other inputs and configuration flags are. -/
theorem claim4_liveness_masking (lg : ℚ → ℚ) (I : Inputs) (m : Mat) (L : Mat) (r t : ℕ)
    (hm : I.is_alive = .mask m) (h : get_elementwise_objective lg I = .ok L)
    (hz : cell m r t = 0) : cell L r t = 0 := by
  rw [objective_ok_elim lg I L h]
  rcases Nat.lt_or_ge r I.rewards.length with hr | hr
  · rcases Nat.lt_or_ge t (I.rewards.getD r []).length with ht | ht
    · unfold objectiveRows
      rw [cell_buildLike _ _ _ _ hr ht, hm]
      simp only [aliveMat]
      rw [hz, mul_zero]
    · exact cell_buildLike_oob _ _ _ _ (Or.inr ht)
  · exact cell_buildLike_oob _ _ _ _ (Or.inl hr)

/-- The witness batch for C4: one row, two ticks, dead at tick 1. -/
def w4I : Inputs :=
  { policy := [[[1], [1]]], state_values := [[2, 3]],
    actions := [[0, 0]], rewards := [[1, 1]],
    is_alive := .mask [[1, 0]] }

/-- C4 witness: the dead cell `(0, 1)` of a two-tick batch has loss 0. -/
theorem claim4_witness : cell (objectiveRows (fun x => x) w4I) 0 1 = 0 := by
  refine claim4_liveness_masking (fun x => x) w4I [[1, 0]] _ 0 1 rfl ?_
    (by norm_num [cell])
  norm_num [get_elementwise_objective, get_n_step_value_reference, estShapesOk,
    asmShapesOk, actionsOk, targetOf, shape, w4I, List.range_succ]

/-- C5: with `crop_last = true` the reference at the last time column is
overwritten with the predicted state value at that column, and the
value-regression (squared-error) term at the last column is 0, for every row. -/
theorem claim5_crop_last (I : Inputs) (r : ℕ)
    (hc : I.crop_last = true) (hr : r < I.rewards.length)
    (hT : 0 < (I.rewards.getD r []).length) :
    cell (reference_after_crop I) r ((I.rewards.getD r []).length - 1)
        = cell I.state_values r ((I.rewards.getD r []).length - 1) ∧
      cell (V_err_elwise I) r ((I.rewards.getD r []).length - 1) = 0 := by
  have ht : (I.rewards.getD r []).length - 1 < (I.rewards.getD r []).length :=
    Nat.sub_lt hT Nat.one_pos
  refine ⟨cell_crop_last I r hc hr hT, ?_⟩
  unfold V_err_elwise
  rw [cell_buildLike _ _ _ _ hr ht, cell_reference_final, cell_crop_last I r hc hr hT,
    sub_self]
  norm_num

/-- C5 witness: a 1-row, 2-tick batch with `crop_last = true`. -/
theorem claim5_witness :
    cell (reference_after_crop
        { policy := [[[1], [1]]], state_values := [[4, 5]],
          actions := [[0, 0]], rewards := [[1, 1]] }) 0 1
        = cell ([[4, 5]] : Mat) 0 1 ∧
      cell (V_err_elwise
        { policy := [[[1], [1]]], state_values := [[4, 5]],
          actions := [[0, 0]], rewards := [[1, 1]] }) 0 1 = 0 :=
  claim5_crop_last _ 0 rfl (by norm_num) (by norm_num)

/-- C9: with `crop_last = true` the whole returned loss at the final time
column is 0 for every row and for all gradient-blocking flag settings: the
reference and predicted values there are equal, so both the policy term's
advantage factor and the squared value error vanish. -/
theorem claim9_crop_last_total_loss (lg : ℚ → ℚ) (I : Inputs) (L : Mat) (r : ℕ)
    (hc : I.crop_last = true) (h : get_elementwise_objective lg I = .ok L)
    (hr : r < I.rewards.length) (hT : 0 < (I.rewards.getD r []).length) :
    cell L r ((I.rewards.getD r []).length - 1) = 0 := by
  have ht : (I.rewards.getD r []).length - 1 < (I.rewards.getD r []).length :=
    Nat.sub_lt hT Nat.one_pos
  rw [objective_ok_elim lg I L h]
  unfold objectiveRows policy_loss_elwise V_err_elwise
  rw [cell_buildLike _ _ _ _ hr ht, cell_buildLike _ _ _ _ hr ht,
    cell_buildLike _ _ _ _ hr ht, cell_reference_final, cell_observed,
    cell_crop_last I r hc hr hT, sub_self]
  ring

/-- The witness batch for C9: one row, two ticks, nonzero values everywhere. -/
def w9I : Inputs :=
  { policy := [[[1], [1]]], state_values := [[2, 7]],
    actions := [[0, 0]], rewards := [[3, 4]] }

/-- C9 witness: the returned loss vanishes at the last column of a concrete
2-tick batch with nonzero values everywhere. -/
theorem claim9_witness : cell (objectiveRows (fun x => x) w9I) 0 1 = 0 := by
  refine claim9_crop_last_total_loss (fun x => x) w9I _ 0 rfl ?_ (by norm_num [w9I])
    (by norm_num [w9I])
  norm_num [get_elementwise_objective, get_n_step_value_reference, estShapesOk,
    asmShapesOk, actionsOk, targetOf, shape, w9I, List.range_succ]

/-- C10: the `crop_last` overwrite happens after the terminal override: with
an explicit mask and both `force_values_after_end` and `crop_last` true, the
final-column reference that feeds the loss equals the predicted state value at
that column for every row — including rows whose episode boundary falls
exactly at the last column. -/
theorem claim10_crop_after_override (I : Inputs) (m : Mat) (r : ℕ)
    (hm : I.is_alive = .mask m) (hf : I.force_values_after_end = true)
    (hc : I.crop_last = true) (hr : r < I.rewards.length)
    (hT : 0 < (I.rewards.getD r []).length) :
    cell (reference_final I) r ((I.rewards.getD r []).length - 1)
      = cell I.state_values r ((I.rewards.getD r []).length - 1) := by
  rw [cell_reference_final]
  exact cell_crop_last I r hc hr hT

/-- C10 witness: a row that is alive through the last column, so its boundary
is exactly there; the reference still ends up as the predicted value 9, not
the reward-based override. -/
theorem claim10_witness :
    cell (reference_final
        { policy := [[[1], [1]]], state_values := [[8, 9]],
          actions := [[0, 0]], rewards := [[1, 2]],
          is_alive := .mask [[1, 1]] }) 0 1
      = cell ([[8, 9]] : Mat) 0 1 :=
  claim10_crop_after_override _ [[1, 1]] 0 rfl rfl rfl (by norm_num) (by norm_num)

theorem cell_log_probas_zero (lg : ℚ → ℚ) (I : Inputs) (r t : ℕ)
    (hr : r < I.rewards.length) (ht : t < (I.rewards.getD r []).length)
    (hp : cell (action_probas I) r t = 0) :
    cell (log_probas lg I) r t = lg (0 + I.min_proba) := by
  unfold log_probas
  by_cases hm : I.min_proba ≠ 0
  · rw [if_pos hm, cell_buildLike _ _ _ _ hr ht, if_pos hp, hp]
  · push_neg at hm
    rw [if_neg (by simp [hm]), cell_buildLike _ _ _ _ hr ht, hp, hm]
    norm_num

theorem cell_log_probas_nonzero (lg : ℚ → ℚ) (I : Inputs) (r t : ℕ)
    (hr : r < I.rewards.length) (ht : t < (I.rewards.getD r []).length)
    (hp : cell (action_probas I) r t ≠ 0) :
    cell (log_probas lg I) r t = lg (cell (action_probas I) r t) := by
  unfold log_probas
  by_cases hm : I.min_proba ≠ 0
  · rw [if_pos hm, cell_buildLike _ _ _ _ hr ht, if_neg hp]
  · rw [if_neg hm, cell_buildLike _ _ _ _ hr ht]

theorem cell_objectiveRows (lg : ℚ → ℚ) (I : Inputs) (r t : ℕ)
    (hr : r < I.rewards.length) (ht : t < (I.rewards.getD r []).length) :
    cell (objectiveRows lg I) r t =
      (-(cell (log_probas lg I) r t) *
          (cell (reference_final I) r t - cell (observed_state_values I) r t)
        + cell (V_err_elwise I) r t) * cell (aliveMat I.actions I.is_alive) r t := by
  unfold objectiveRows policy_loss_elwise
  rw [cell_buildLike _ _ _ _ hr ht, cell_buildLike _ _ _ _ hr ht]

/-- C6: wherever the selected action probability is exactly 0, the logarithm
used by the policy loss is taken at `0 + min_proba` (finite for any positive
`min_proba` since the logarithm is then applied to a nonzero argument);
wherever it is nonzero, the returned loss cell is numerically identical to
what it would be with `min_proba = 0`. -/
theorem claim6_min_proba (lg : ℚ → ℚ) (I : Inputs) (r t : ℕ)
    (hr : r < I.rewards.length) (ht : t < (I.rewards.getD r []).length) :
    (cell (action_probas I) r t = 0 →
        cell (log_probas lg I) r t = lg (0 + I.min_proba)) ∧
      (cell (action_probas I) r t ≠ 0 →
        cell (objectiveRows lg I) r t
          = cell (objectiveRows lg { I with min_proba := 0 }) r t) := by
  refine ⟨cell_log_probas_zero lg I r t hr ht, ?_⟩
  intro hp
  have hpJ : cell (action_probas { I with min_proba := 0 }) r t ≠ 0 := hp
  rw [cell_objectiveRows lg I r t hr ht,
    cell_objectiveRows lg { I with min_proba := 0 } r t hr ht,
    cell_log_probas_nonzero lg I r t hr ht hp,
    cell_log_probas_nonzero lg { I with min_proba := 0 } r t hr ht hpJ]
  rfl

/-- The witness batch for C6: the selected action has probability 0 at tick 0
and probability 1/2 at tick 1. -/
def w6I : Inputs :=
  { policy := [[[0], [1 / 2]]], state_values := [[2, 3]],
    actions := [[0, 0]], rewards := [[1, 1]] }

/-- C6 witness: at the zero-probability cell the logarithm is taken at
`0 + min_proba`; at the probability-1/2 cell the loss cell is unchanged by
setting `min_proba` to 0. -/
theorem claim6_witness :
    cell (log_probas (fun x => x) w6I) 0 0 = 0 + w6I.min_proba ∧
      cell (objectiveRows (fun x => x) w6I) 0 1
        = cell (objectiveRows (fun x => x) { w6I with min_proba := 0 }) 0 1 := by
  constructor
  · exact (claim6_min_proba (fun x => x) w6I 0 0 (by norm_num [w6I])
      (by norm_num [w6I])).1
      (by norm_num [cell, action_probas, buildLike, w6I, List.range_succ])
  · exact (claim6_min_proba (fun x => x) w6I 0 1 (by norm_num [w6I])
      (by norm_num [w6I])).2
      (by norm_num [cell, action_probas, buildLike, w6I, List.range_succ])

/-- C2 counterexample: with mask `[[1, 0]]` (dead at tick 1), `n_steps = 1`,
`gamma = 1/2`, target values `[[5, 7]]` and rewards `[[1, 2]]`, the reference
at tick 0 is `1` — the liveness reset drops the bootstrap — and not
`rewards[0] + gamma * state_values_target[1] = 1 + (1/2) * 7`. -/
theorem claim2_counterexample :
    get_n_step_value_reference [[5, 7]] [[1, 2]] (.mask [[1, 0]]) (some 1) .zeros (1 / 2)
        = .ok [[1, 0]] ∧
      cell [[1, 0]] 0 0 ≠ cell [[1, 2]] 0 0 + (1 / 2) * cell [[5, 7]] 0 1 := by
  constructor
  · norm_num [get_n_step_value_reference, estShapesOk, shape, referenceRows, nStepRefRow,
      refA, aliveRowsEst, afterEndVal, nStepsNat, cell, List.range_succ]
  · norm_num [cell]

/-- C2 amended: with `n_steps = 1` the Return Estimator is characterised
tick by tick: a dead tick has reference 0; an alive tick `t` has reference
`rewards[t] + gamma * state_values_target[t+1]`, with the supplied after-end
value in place of `state_values_target[t+1]` at the final column, except that
when step `t+1` is dead the bootstrap term is dropped (the reference is the
immediate reward alone). -/
theorem claim2_one_step_amended (vtgt rewards : Mat) (ia : Aliveness) (aE : AfterEnd)
    (g : ℚ) (M : Mat) (r t : ℕ)
    (h : get_n_step_value_reference vtgt rewards ia (some 1) aE g = .ok M)
    (hr : r < rewards.length) (ht : t < (rewards.getD r []).length) :
    (cell (aliveRowsEst rewards ia) r t = 0 → cell M r t = 0) ∧
      (cell (aliveRowsEst rewards ia) r t ≠ 0 →
        (t + 1 = (rewards.getD r []).length →
            cell M r t = cell rewards r t + g * afterEndVal aE r) ∧
          (t + 1 < (rewards.getD r []).length →
              cell (aliveRowsEst rewards ia) r (t + 1) ≠ 0 →
            cell M r t = cell rewards r t + g * cell vtgt r (t + 1)) ∧
            (t + 1 < (rewards.getD r []).length →
                cell (aliveRowsEst rewards ia) r (t + 1) = 0 →
              cell M r t = cell rewards r t)) := by
  obtain ⟨hs, hM⟩ := est_ok_elim _ _ _ _ _ _ _ h
  subst hM
  have halen : ((aliveRowsEst rewards ia).getD r []).length = (rewards.getD r []).length :=
    alive_row_len vtgt rewards ia hs r
  have hAt : ((aliveRowsEst rewards ia).getD r []).getD t 1
      = cell (aliveRowsEst rewards ia) r t :=
    getD_eq_of_lt _ _ _ _ (by rw [halen]; exact ht)
  rw [cell_referenceRows _ _ _ _ _ _ _ _ hr ht]
  have hw : (nStepsNat (some 1)).getD ((rewards.getD r []).length - t) = 1 := rfl
  rw [hw]
  have e1 : refA g (rewards.getD r []) (vtgt.getD r [])
      ((aliveRowsEst rewards ia).getD r [])
      (afterEndVal aE r) (rewards.getD r []).length t 1
      = if ((aliveRowsEst rewards ia).getD r []).getD t 1 = 0 then 0
        else (rewards.getD r []).getD t 0 +
          g * (if (rewards.getD r []).length ≤ t + 1 then afterEndVal aE r
               else if ((aliveRowsEst rewards ia).getD r []).getD (t + 1) 1 = 0 then 0
                    else (vtgt.getD r []).getD (t + 1) 0) := rfl
  rw [e1, hAt]
  constructor
  · intro h0
    rw [if_pos h0]
  · intro hne
    rw [if_neg hne]
    refine ⟨?_, ?_, ?_⟩
    · intro hlast
      rw [if_pos (by omega)]
      rfl
    · intro hmid hnext
      have hAt2 : ((aliveRowsEst rewards ia).getD r []).getD (t + 1) 1
          = cell (aliveRowsEst rewards ia) r (t + 1) :=
        getD_eq_of_lt _ _ _ _ (by rw [halen]; exact hmid)
      rw [if_neg (by omega), hAt2, if_neg hnext]
      rfl
    · intro hmid hnext
      have hAt2 : ((aliveRowsEst rewards ia).getD r []).getD (t + 1) 1
          = cell (aliveRowsEst rewards ia) r (t + 1) :=
        getD_eq_of_lt _ _ _ _ (by rw [halen]; exact hmid)
      rw [if_neg (by omega), hAt2, if_pos hnext, mul_zero, add_zero]
      rfl

/-- C2 amended witness: on the counterexample batch, tick 0 (alive, dead
successor) keeps the immediate reward 1, and on an always-alive batch tick 0
bootstraps with the target value at tick 1. -/
theorem claim2_amended_witness :
    cell [[1, 0]] 0 0 = cell [[1, 2]] 0 0 ∧
      cell [[4, 2]] 0 0 = cell [[1, 2]] 0 0 + (1 / 2) * cell [[6, 6]] 0 1 := by
  constructor
  · have h := (claim2_one_step_amended [[5, 7]] [[1, 2]] (.mask [[1, 0]]) .zeros (1 / 2)
      [[1, 0]] 0 0
      (by norm_num [get_n_step_value_reference, estShapesOk, shape, referenceRows,
        nStepRefRow, refA, aliveRowsEst, afterEndVal, nStepsNat, List.range_succ])
      (by norm_num) (by norm_num)).2
      (by norm_num [cell, aliveRowsEst])
    exact h.2.2 (by norm_num) (by norm_num [cell, aliveRowsEst])
  · have h := (claim2_one_step_amended [[6, 6]] [[1, 2]] .always .zeros (1 / 2)
      [[4, 2]] 0 0
      (by norm_num [get_n_step_value_reference, estShapesOk, shape, referenceRows,
        nStepRefRow, refA, aliveRowsEst, afterEndVal, nStepsNat, List.range_succ])
      (by norm_num) (by norm_num)).2
      (by norm_num [cell, aliveRowsEst, List.range_succ])
    exact h.2.1 (by norm_num) (by norm_num [cell, aliveRowsEst, List.range_succ])

end A2CNStep
